import Mathlib

/-!
Verification of the Mafia-style game simulator.

The definitions below are a shallow embedding of the C++ sources:
`src/core/moderator.cpp`, `include/coro/scheduler.hpp`,
`src/roles/doctor.cpp`, the engines' player-setup routines and the two
CLI entry points.  Players are modelled as a vector of optional records
(position = id; `none` models a null `shared_like` slot), machine
integers as `Nat`, RNG draws and role callbacks as explicit oracle
parameters.
-/

namespace Mafia

/-- Team as in `roles::Team`. -/
inductive Team where
  | Town
  | Mafia
  | Maniac
deriving DecidableEq, Repr

/-- Role as in `roles::Role`. -/
inductive Role where
  | Citizen
  | Mafia
  | Detective
  | Doctor
  | Maniac
  | Executioner
  | Journalist
  | Eavesdropper
deriving DecidableEq, Repr

/-- Winner as in `core::Winner`. -/
inductive Winner where
  | None
  | Town
  | Mafia
  | Maniac
deriving DecidableEq, Repr

/-- The per-player record: role, team and the single mutable flag `alive`. -/
structure Player where
  role : Role
  team : Team
  alive : Bool
deriving DecidableEq, Repr

/-- The player vector of `GameState`; `none` is a null slot (`!ps[i]`). -/
abbrev Players := List (Option Player)

/-- Fetch the player at index `i`: `none` when out of range or null. -/
def getP (ps : Players) (i : Nat) : Option Player :=
  ps.getD i none

/-- `Moderator::is_alive`: `id < ps.size() && ps[id] && ps[id]->is_alive()`. -/
def is_alive (ps : Players) (i : Nat) : Bool :=
  match getP ps i with
  | some p => p.alive
  | none => false

/-- `Moderator::is_mafia`: in range, present, alive and on team Mafia. -/
def is_mafia (ps : Players) (i : Nat) : Bool :=
  match getP ps i with
  | some p => p.alive && p.team == Team.Mafia
  | none => false

/-- `Moderator::investigate`: ignores the detective id, answers `is_mafia(target)`. -/
def investigate (ps : Players) (_detective_id : Nat) (target : Nat) : Bool :=
  is_mafia ps target

/-- `Moderator::alive_mafia_count_`. -/
def alive_mafia_count (ps : Players) : Nat :=
  ps.countP (fun op => match op with
    | some p => p.alive && p.team == Team.Mafia
    | none => false)

/-- `Moderator::alive_town_count_`. -/
def alive_town_count (ps : Players) : Nat :=
  ps.countP (fun op => match op with
    | some p => p.alive && p.team == Team.Town
    | none => false)

/-- `Moderator::alive_maniac_count_`. -/
def alive_maniac_count (ps : Players) : Nat :=
  ps.countP (fun op => match op with
    | some p => p.alive && p.team == Team.Maniac
    | none => false)

/-- `Moderator::evaluate_winner`, branch for branch. -/
def evaluate_winner (ps : Players) : Winner :=
  let maf := alive_mafia_count ps
  let man := alive_maniac_count ps
  let town := alive_town_count ps
  if maf = 0 ∧ man = 0 then Winner.Town
  else if man = 1 ∧ town = 1 ∧ maf = 0 then Winner.Maniac
  else if 0 < maf ∧ town + man ≤ maf then Winner.Mafia
  else Winner.None

/-- `Moderator::kill_player`: idempotent, clears `alive` for a present live id. -/
def kill_player (ps : Players) (id : Nat) : Players :=
  match getP ps id with
  | some p => if p.alive then ps.set id (some { p with alive := false }) else ps
  | none => ps

end Mafia

namespace Mafia

/-- `Moderator::is_maniac`: in range, present, alive and on team Maniac. -/
def is_maniac (ps : Players) (i : Nat) : Bool :=
  match getP ps i with
  | some p => p.alive && p.team == Team.Maniac
  | none => false

/-- A journalist query `{jid, a, b}`. -/
structure JQuery where
  jid : Nat
  a : Nat
  b : Nat
deriving DecidableEq, Repr

/-- Which night source marked a victim (`marked-by-*` journal lines). -/
inductive MarkSrc where
  | mafia
  | detective
  | maniac
deriving DecidableEq, Repr

/-- One line of the in-memory round journal (`round_log_`). Payloads keep the
ids, roles and flags that the corresponding C++ line interpolates. -/
inductive Entry where
  | dayVote (voter target : Nat)
  | dayNoLynch
  | dayTieNoLynch
  | dayTieRandom
  | lynchVictim (v : Nat) (r : Option Role)
  | executionerLynch (v : Nat) (r : Option Role)
  | executionerAbstains (i : Nat)
  | executionerInvalid (i : Nat)
  | executionerChooses (v : Nat)
  | mafiaVote (voter target : Nat)
  | detectiveShot (t : Nat)
  | doctorHeal (t : Nat)
  | maniacTarget (t : Nat)
  | journalistCompare (jid a b : Nat)
  | eavesdropTarget (eid t : Nat)
  | mafiaTally (xs : List (Nat × Nat))
  | markedBy (src : MarkSrc) (t : Nat)
  | healCancels (t : Nat)
  | journalistResult (jid a b : Nat) (same : Bool)
  | eavesdropResult (eid t : Nat) (mafiaK : Nat) (det doc man : Bool)
  | death (t : Nat) (r : Option Role)
deriving DecidableEq, Repr

/-- The Moderator's intent buffers, statistics and journal (the mutable
fields of `core::Moderator` that the modelled operations touch). -/
structure MState where
  day_votes : List (Option Nat)
  day_voted_flag : List Bool
  mafia_vote_counts : List Nat
  detective_shot : Option Nat
  doctor_heal : Option Nat
  maniac_target : Option Nat
  journalist_queries : List JQuery
  eavesdrop_requests : List (Nat × Nat)
  stats_votes_given_day : List Nat
  stats_votes_received_day : List Nat
  stats_mafia_votes : List Nat
  stats_detective_shots : List Nat
  stats_doctor_heals : List Nat
  stats_maniac_targets : List Nat
  stats_died_round : List Nat
  round_index : Nat
  journal : List Entry
deriving DecidableEq, Repr

/-- `std::vector<std::optional<PlayerId>>::resize(n)`. -/
def resizeOpt (l : List (Option Nat)) (n : Nat) : List (Option Nat) :=
  l.take n ++ List.replicate (n - l.length) none

/-- `if (i < v.size()) ++v[i];` — the guarded statistics increment idiom. -/
def bump (l : List Nat) (i : Nat) : List Nat :=
  if i < l.length then l.set i (l.getD i 0 + 1) else l

/-- `Moderator::submit_day_vote`: range, presence and aliveness checks, then
last-vote-wins into `day_votes_`, first-vote statistics, and a journal line.
There is no self-vote check. -/
def submit_day_vote (ps : Players) (st : MState) (voter target : Nat) : MState :=
  let n := ps.length
  if n ≤ voter ∨ n ≤ target then st else
  match getP ps voter, getP ps target with
  | some pv, some pt =>
    if pv.alive && pt.alive then
      let dv := if st.day_votes.length ≠ n then resizeOpt st.day_votes n
                else st.day_votes
      let first := voter < st.day_voted_flag.length ∧
        st.day_voted_flag.getD voter false = false
      { st with
        day_votes := dv.set voter (some target)
        day_voted_flag :=
          if first then st.day_voted_flag.set voter true else st.day_voted_flag
        stats_votes_given_day :=
          if first then bump st.stats_votes_given_day voter
          else st.stats_votes_given_day
        journal := st.journal ++ [Entry.dayVote voter target] }
    else st
  | _, _ => st

/-- `Moderator::mafia_vote_target`: range/presence/aliveness plus the
`is_mafia` role check, then an increment of the target's tally cell.
There is no self-vote check. -/
def mafia_vote_target (ps : Players) (st : MState) (mafia_id target : Nat) :
    MState :=
  let n := ps.length
  if n ≤ mafia_id ∨ n ≤ target then st else
  match getP ps mafia_id, getP ps target with
  | some pm, some pt =>
    if pm.alive && pt.alive then
      if is_mafia ps mafia_id then
        let counts := if st.mafia_vote_counts.length ≠ n then List.replicate n 0
                      else st.mafia_vote_counts
        { st with
          mafia_vote_counts := counts.set target (counts.getD target 0 + 1)
          stats_mafia_votes := bump st.stats_mafia_votes mafia_id
          journal := st.journal ++ [Entry.mafiaVote mafia_id target] }
      else st
    else st
  | _, _ => st

/-- `Moderator::set_detective_shot`: range/presence/aliveness checks, then
last-write-wins into `detective_shot_`.  No self-target check. -/
def set_detective_shot (ps : Players) (st : MState) (detective_id target : Nat) :
    MState :=
  let n := ps.length
  if n ≤ detective_id ∨ n ≤ target then st else
  match getP ps detective_id, getP ps target with
  | some pd, some pt =>
    if pd.alive && pt.alive then
      { st with
        detective_shot := some target
        stats_detective_shots := bump st.stats_detective_shots detective_id
        journal := st.journal ++ [Entry.detectiveShot target] }
    else st
  | _, _ => st

/-- `Moderator::set_doctor_heal`: range/presence/aliveness checks, then
last-write-wins into `doctor_heal_`.  Self-heal is allowed. -/
def set_doctor_heal (ps : Players) (st : MState) (doctor_id target : Nat) :
    MState :=
  let n := ps.length
  if n ≤ doctor_id ∨ n ≤ target then st else
  match getP ps doctor_id, getP ps target with
  | some pd, some pt =>
    if pd.alive && pt.alive then
      { st with
        doctor_heal := some target
        stats_doctor_heals := bump st.stats_doctor_heals doctor_id
        journal := st.journal ++ [Entry.doctorHeal target] }
    else st
  | _, _ => st

/-- `Moderator::set_maniac_target`: range/presence/aliveness plus the
`is_maniac` role check, then last-write-wins into `maniac_target_`.
No self-target check. -/
def set_maniac_target (ps : Players) (st : MState) (maniac_id target : Nat) :
    MState :=
  let n := ps.length
  if n ≤ maniac_id ∨ n ≤ target then st else
  match getP ps maniac_id, getP ps target with
  | some pm, some pt =>
    if pm.alive && pt.alive then
      if is_maniac ps maniac_id then
        { st with
          maniac_target := some target
          stats_maniac_targets := bump st.stats_maniac_targets maniac_id
          journal := st.journal ++ [Entry.maniacTarget target] }
      else st
    else st
  | _, _ => st

/-- `Moderator::set_journalist_compare`: range checks, the two distinctness
checks `a ≠ b` and `jid ∉ {a, b}`, presence/aliveness, then append. -/
def set_journalist_compare (ps : Players) (st : MState)
    (journalist_id a b : Nat) : MState :=
  let n := ps.length
  if n ≤ journalist_id ∨ n ≤ a ∨ n ≤ b then st else
  if a = b then st else
  if journalist_id = a ∨ journalist_id = b then st else
  match getP ps journalist_id, getP ps a, getP ps b with
  | some pj, some pa, some pb =>
    if pj.alive && pa.alive && pb.alive then
      { st with
        journalist_queries := st.journalist_queries ++ [⟨journalist_id, a, b⟩]
        journal := st.journal ++ [Entry.journalistCompare journalist_id a b] }
    else st
  | _, _, _ => st

/-- `Moderator::set_eavesdropper_target`: range check, the self-target check
`eid ≠ target`, presence/aliveness, then append. -/
def set_eavesdropper_target (ps : Players) (st : MState)
    (eavesdropper_id target : Nat) : MState :=
  let n := ps.length
  if n ≤ eavesdropper_id ∨ n ≤ target then st else
  if eavesdropper_id = target then st else
  match getP ps eavesdropper_id, getP ps target with
  | some pe, some pt =>
    if pe.alive && pt.alive then
      { st with
        eavesdrop_requests := st.eavesdrop_requests ++ [(eavesdropper_id, target)]
        journal := st.journal ++ [Entry.eavesdropTarget eavesdropper_id target] }
    else st
  | _, _ => st

/-- The Moderator's buffers as initialised by the constructor for `n` players
(and by `clear_day_votes` / `clear_night_intents_` for the day/night parts). -/
def init_mstate (n : Nat) : MState where
  day_votes := List.replicate n none
  day_voted_flag := List.replicate n false
  mafia_vote_counts := List.replicate n 0
  detective_shot := none
  doctor_heal := none
  maniac_target := none
  journalist_queries := []
  eavesdrop_requests := []
  stats_votes_given_day := List.replicate n 0
  stats_votes_received_day := List.replicate n 0
  stats_mafia_votes := List.replicate n 0
  stats_detective_shots := List.replicate n 0
  stats_doctor_heals := List.replicate n 0
  stats_maniac_targets := List.replicate n 0
  stats_died_round := List.replicate n 0
  round_index := 0
  journal := []

/-- `GameConfig::TiePolicy`. -/
inductive TiePolicy where
  | none
  | random
deriving DecidableEq, Repr

/-- `max` over a vector of counts (the `for (auto c : v) m = max(m, c)` idiom). -/
def list_max (l : List Nat) : Nat := l.foldr max 0

/-- `if (i < v.size() && v[i] == 0) v[i] = r;` — the death-round statistic. -/
def setDied (l : List Nat) (i r : Nat) : List Nat :=
  if i < l.length ∧ l.getD i 0 = 0 then l.set i r else l

/-- The snapshot of `day_votes_` taken by `resolve_day_lynch` (after the
defensive resize). -/
def day_votes_snapshot (ps : Players) (st : MState) : List (Option Nat) :=
  if st.day_votes.length ≠ ps.length then resizeOpt st.day_votes ps.length
  else st.day_votes

/-- The final-vote tally of `resolve_day_lynch`: cell `t` counts the alive
voters whose last vote names `t`, and only alive targets collect votes. -/
def day_tally (ps : Players) (votes : List (Option Nat)) : List Nat :=
  (List.range ps.length).map (fun t =>
    if is_alive ps t then
      ((List.range ps.length).filter (fun v =>
        is_alive ps v && votes.getD v none == some t)).length
    else 0)

/-- The leaders collected by `resolve_day_lynch`: every id whose tally equals
the maximum, in increasing id order. -/
def day_leaders (tally : List Nat) : List Nat :=
  (List.range tally.length).filter (fun i => tally.getD i 0 == list_max tally)

/-- The loop body of `Moderator::resolve_tie_via_executioner_`: walk ids in
increasing order; skip missing, dead and non-Executioner players; on an
abstention or an out-of-set choice journal it and continue; on an in-set
choice journal it and stop.  Returns the chosen victim and the journal
lines. -/
def exec_tie_loop (ps : Players) (decide : Nat → List Nat → Option Nat)
    (leaders : List Nat) : List Nat → Option Nat × List Entry
  | [] => (Option.none, [])
  | i :: rest =>
    match getP ps i with
    | some p =>
      if p.alive && p.role == Role.Executioner then
        match decide i leaders with
        | Option.none =>
          let r := exec_tie_loop ps decide leaders rest
          (r.1, Entry.executionerAbstains i :: r.2)
        | some v =>
          if v ∈ leaders then (some v, [Entry.executionerChooses v])
          else
            let r := exec_tie_loop ps decide leaders rest
            (r.1, Entry.executionerInvalid i :: r.2)
      else exec_tie_loop ps decide leaders rest
    | Option.none => exec_tie_loop ps decide leaders rest

/-- `Moderator::resolve_tie_via_executioner_` over all ids. -/
def resolve_tie_via_executioner (ps : Players)
    (decide : Nat → List Nat → Option Nat) (leaders : List Nat) :
    Option Nat × List Entry :=
  exec_tie_loop ps decide leaders (List.range ps.length)

/-- One executioner's contribution under the spec's words: an alive
Executioner returning an id inside `leaders` yields that id. -/
def exec_check (ps : Players) (decide : Nat → List Nat → Option Nat)
    (leaders : List Nat) (i : Nat) : Option Nat :=
  match getP ps i with
  | some p =>
    if p.alive && p.role == Role.Executioner then
      match decide i leaders with
      | some v => if v ∈ leaders then some v else Option.none
      | Option.none => Option.none
    else Option.none
  | Option.none => Option.none

/-- Modelled from the spec's words, for comparison with the code: "ask each
alive Executioner in id-order for an optional victim ∈ leaders; the first
Executioner that returns a valid in-set id wins". -/
def exec_tie_spec (ps : Players) (decide : Nat → List Nat → Option Nat)
    (leaders : List Nat) : Option Nat :=
  (List.range ps.length).findSome? (exec_check ps decide leaders)

/-- `Moderator::resolve_day_lynch`.  The Executioner capability
`decide_execution` and the moderator RNG draw are oracle parameters.
Returns the lynched id, the updated player vector and the updated
moderator state. -/
def resolve_day_lynch (tie : TiePolicy) (ps : Players) (st : MState)
    (decide : Nat → List Nat → Option Nat) (choose : List Nat → Nat) :
    Option Nat × Players × MState :=
  let n := ps.length
  let votes := day_votes_snapshot ps st
  let tally := day_tally ps votes
  let stR := (List.range n).foldl (fun acc i =>
    if 0 < tally.getD i 0 ∧ i < acc.length then
      acc.set i (acc.getD i 0 + tally.getD i 0)
    else acc) st.stats_votes_received_day
  let st1 := { st with stats_votes_received_day := stR }
  if list_max tally = 0 then
    (Option.none, ps, { st1 with journal := st1.journal ++ [Entry.dayNoLynch] })
  else
    let leaders := day_leaders tally
    if 1 < leaders.length then
      match tie with
      | TiePolicy.none =>
        let r := resolve_tie_via_executioner ps decide leaders
        match r.1 with
        | Option.none =>
          (Option.none, ps,
            { st1 with journal := st1.journal ++ r.2 ++ [Entry.dayTieNoLynch] })
        | some victim =>
          (some victim, kill_player ps victim,
            { st1 with
              journal := st1.journal ++ r.2 ++
                [Entry.executionerLynch victim ((getP ps victim).map (·.role))]
              stats_died_round := setDied st1.stats_died_round victim st1.round_index })
      | TiePolicy.random =>
        let victim := choose leaders
        (some victim, kill_player ps victim,
          { st1 with
            journal := st1.journal ++ [Entry.dayTieRandom,
              Entry.lynchVictim victim ((getP ps victim).map (·.role))]
            stats_died_round := setDied st1.stats_died_round victim st1.round_index })
    else
      match leaders with
      | [] => (Option.none, ps, st1)
      | victim :: _ =>
        (some victim, kill_player ps victim,
          { st1 with
            journal := st1.journal ++
              [Entry.lynchVictim victim ((getP ps victim).map (·.role))]
            stats_died_round := setDied st1.stats_died_round victim st1.round_index })

/-- The marking function of `resolve_night`'s `mark_shot` lambda: set the
kill bit of an alive, present, in-range target. -/
def markFun (ps : Players) (k : Nat → Bool) (tid : Option Nat) : Nat → Bool :=
  match tid with
  | some t => if is_alive ps t then fun x => if x = t then true else k x else k
  | Option.none => k

/-- The journal side of `mark_shot`. -/
def mark_entries (ps : Players) (tid : Option Nat) (src : MarkSrc) :
    List Entry :=
  match tid with
  | some t => if is_alive ps t then [Entry.markedBy src t] else []
  | Option.none => []

/-- The heal step of `resolve_night`: clear the kill bit of an alive healed
target. -/
def healFun (ps : Players) (k : Nat → Bool) (h : Option Nat) : Nat → Bool :=
  match h with
  | some t => if is_alive ps t then fun x => if x = t then false else k x else k
  | Option.none => k

/-- The journal side of the heal step: the line is emitted whenever the
healed target is alive, cancelled kill or not. -/
def heal_entries (ps : Players) (h : Option Nat) : List Entry :=
  match h with
  | some t => if is_alive ps t then [Entry.healCancels t] else []
  | Option.none => []

/-- The `NIGHT: mafia-tally` aggregation: positive counts of alive targets. -/
def mafia_tally_pairs (ps : Players) (counts : List Nat) : List (Nat × Nat) :=
  (List.range ps.length).filterMap (fun i =>
    if 0 < counts.getD i 0 ∧ is_alive ps i = true then some (i, counts.getD i 0)
    else Option.none)

/-- The mafia-target candidates: alive ids whose tally equals the maximum. -/
def mafia_candidates (ps : Players) (counts : List Nat) : List Nat :=
  (List.range ps.length).filter (fun i =>
    counts.getD i 0 == list_max counts && is_alive ps i)

/-- `Moderator::resolve_night`: snapshot the night buffers, pick the mafia
target (tie broken by the RNG oracle `choose`), mark the three kill sources,
apply the heal, answer journalist and eavesdropper queries, apply deaths in
id order, clear the night buffers.  Returns the dead ids, the updated player
vector and the updated moderator state. -/
def resolve_night (ps : Players) (st : MState) (choose : List Nat → Nat) :
    List Nat × Players × MState :=
  let n := ps.length
  let counts := if st.mafia_vote_counts.length ≠ n then List.replicate n 0
                else st.mafia_vote_counts
  let det := st.detective_shot
  let doc := st.doctor_heal
  let man := st.maniac_target
  let tallyE : List Entry := [Entry.mafiaTally (mafia_tally_pairs ps counts)]
  let cands := mafia_candidates ps counts
  let mafia_target : Option Nat :=
    if 0 < list_max counts ∧ cands ≠ [] then some (choose cands) else Option.none
  let marksE := mark_entries ps mafia_target MarkSrc.mafia ++
    mark_entries ps det MarkSrc.detective ++ mark_entries ps man MarkSrc.maniac
  let toKill := healFun ps
    (markFun ps (markFun ps (markFun ps (fun _ => false) mafia_target) det) man)
    doc
  let healE := heal_entries ps doc
  let jE := st.journalist_queries.filterMap (fun q =>
    if q.a < n ∧ q.b < n then
      match getP ps q.a, getP ps q.b with
      | some pa, some pb =>
        some (Entry.journalistResult q.jid q.a q.b (pa.team == pb.team))
      | _, _ => Option.none
    else Option.none)
  let eE := st.eavesdrop_requests.filterMap (fun r =>
    if r.2 < n then
      match getP ps r.2 with
      | some _ =>
        some (Entry.eavesdropResult r.1 r.2 (counts.getD r.2 0)
          (det == some r.2) (doc == some r.2) (man == some r.2))
      | Option.none => Option.none
    else Option.none)
  let deaths := (List.range n).filter toKill
  let deathE := deaths.map (fun i => Entry.death i ((getP ps i).map (·.role)))
  let ps2 := deaths.foldl kill_player ps
  let died := deaths.foldl (fun acc i => setDied acc i st.round_index)
    st.stats_died_round
  (deaths, ps2,
    { st with
      journal := st.journal ++ tallyE ++ marksE ++ healE ++ jE ++ eE ++ deathE
      stats_died_round := died
      mafia_vote_counts := List.replicate n 0
      detective_shot := Option.none
      doctor_heal := Option.none
      maniac_target := Option.none
      journalist_queries := []
      eavesdrop_requests := [] })

/-- The configuration fields consumed by the engines' player setup. -/
structure GameConfig where
  n_players : Nat
  k_mafia_divisor : Nat
  executioner_count : Nat
  journalist_count : Nat
  eavesdropper_count : Nat
deriving DecidableEq, Repr

/-- `GameEngine::setup_players_` / `GameEngineCoro::init_players_` (both use
the same census): mafia = `max(1, N / max(3, k_div))`, one Detective, one
Doctor, one Maniac, at most one of each extra role, Citizens fill the rest;
throws when the fixed roles do not fit.  The shuffle is an oracle (the code
shuffles the bag with the global RNG). -/
def setup_players (cfg : GameConfig) (shuffle : List Role → List Role) :
    Except String (List Role) :=
  let total := cfg.n_players
  let mafia_cnt := max 1 (total / max 3 cfg.k_mafia_divisor)
  let detective_cnt := 1
  let doctor_cnt := 1
  let maniac_cnt := 1
  let executioner_cnt := min cfg.executioner_count 1
  let journalist_cnt := min cfg.journalist_count 1
  let eavesdropper_cnt := min cfg.eavesdropper_count 1
  let fixed := mafia_cnt + detective_cnt + doctor_cnt + maniac_cnt +
    executioner_cnt + journalist_cnt + eavesdropper_cnt
  if total < fixed then
    Except.error "not enough slots for mandatory + extra roles"
  else
    let citizens_cnt := total - fixed
    Except.ok (shuffle
      (List.replicate mafia_cnt Role.Mafia ++
       List.replicate detective_cnt Role.Detective ++
       List.replicate doctor_cnt Role.Doctor ++
       List.replicate maniac_cnt Role.Maniac ++
       List.replicate executioner_cnt Role.Executioner ++
       List.replicate journalist_cnt Role.Journalist ++
       List.replicate eavesdropper_cnt Role.Eavesdropper ++
       List.replicate citizens_cnt Role.Citizen))

/-- Candidate computation of `Doctor::on_night` from
`src/src/roles/doctor.cpp`: candidates start as the alive ids (self
included); the previous heal target is removed only when an alternative
exists (`alive.size() > 1`), and re-added when removal would have emptied
the list. -/
def doctor_cands (alive : List Nat) (prev : Option Nat) : List Nat :=
  match prev with
  | some p =>
    if 1 < alive.length then
      let a := alive.filter (fun x => x ≠ p)
      if a.isEmpty then [p] else a
    else alive
  | Option.none => alive

/-- `Doctor::on_night`: draw from the candidates (oracle `choose`; `id_` on
the end-iterator fallback) and always submit the heal.  Returns the
submitted heal and the new `prev_heal_`. -/
def doctor_on_night (id_ : Nat) (alive : List Nat) (prev : Option Nat)
    (choose : List Nat → Option Nat) : Option Nat × Option Nat :=
  let target :=
    match choose (doctor_cands alive prev) with
    | some t => t
    | Option.none => id_
  (some target, some target)

/-- The round-file bookkeeping of the Moderator: the current round index,
the written-this-round flag, and the indices actually flushed to disk. -/
structure RoundFile where
  round_index : Nat
  round_written : Bool
  writes : List Nat
deriving DecidableEq, Repr

/-- The file-state part of `Moderator::round_begin_day_`. -/
def round_begin_day (s : RoundFile) : RoundFile :=
  { s with round_index := s.round_index + 1, round_written := false }

/-- `Moderator::round_write_file_`; `openOk` models whether the `ofstream`
opened.  An already-written round is a no-op; a failed open still marks the
round written so the write is never retried. -/
def round_write_file (openOk : Bool) (s : RoundFile) : RoundFile :=
  if s.round_written then s
  else if !openOk then { s with round_written := true }
  else { s with round_written := true, writes := s.writes ++ [s.round_index] }

/-- `Moderator::finalize_round_file_if_pending`. -/
def finalize_round_file_if_pending (openOk : Bool) (s : RoundFile) :
    RoundFile :=
  if 0 < s.round_index ∧ s.round_written = false then round_write_file openOk s
  else s

/-- The three operations that touch the round-file state during a match:
`round_begin_day_` (from `clear_day_votes`), `round_write_file_(true)` (from
`resolve_night`) and `finalize_round_file_if_pending` (at game over). -/
inductive RoundOp where
  | beginDay
  | writeNight (openOk : Bool)
  | finalizePending (openOk : Bool)
deriving DecidableEq, Repr

def round_step (s : RoundFile) (op : RoundOp) : RoundFile :=
  match op with
  | RoundOp.beginDay => round_begin_day s
  | RoundOp.writeNight ok => round_write_file ok s
  | RoundOp.finalizePending ok => finalize_round_file_if_pending ok s

/-- A match's round-file history from the constructor state
(`round_index_ = 0`, `round_written_ = false`). -/
def round_run (ops : List RoundOp) : RoundFile :=
  ops.foldl round_step ⟨0, false, []⟩

/-- The invariant tying the write history to the bookkeeping flags. -/
def RoundInv (s : RoundFile) : Prop :=
  (∀ r ∈ s.writes, r ≤ s.round_index) ∧ s.writes.Nodup ∧
    (s.round_written = false → s.round_index ∉ s.writes)

/-- `coro::PhaseBarrier` state: `expected_`, `arrived_`, `waiters_`
(coroutine handles as numbers). -/
structure Barrier where
  expected : Nat
  arrived : Nat
  waiters : List Nat
deriving DecidableEq, Repr

/-- Observable events of `PhaseBarrier::on_arrive_`: running `on_complete_`
and resuming a waiter handle. -/
inductive BEvent where
  | callback
  | resume (h : Nat)
deriving DecidableEq, Repr

/-- `PhaseBarrier::on_arrive_(h)`: push the handle, bump `arrived_`; on the
Nth arrival reset `arrived_`, move the waiters out, run `on_complete_` (when
set), then resume every non-done handle in insertion order.  `done` models
`hh.done()`. -/
def on_arrive (hasCallback : Bool) (done : Nat → Bool) (b : Barrier)
    (h : Nat) : Barrier × List BEvent :=
  let w := b.waiters ++ [h]
  let a := b.arrived + 1
  if a = b.expected then
    ({ b with arrived := 0, waiters := [] },
      (if hasCallback then [BEvent.callback] else []) ++
        (w.filter (fun x => !done x)).map BEvent.resume)
  else
    ({ b with arrived := a, waiters := w }, [])

/-- A sequence of arrivals, concatenating the emitted events. -/
def arrive_many (hasCallback : Bool) (done : Nat → Bool) :
    Barrier → List Nat → Barrier × List BEvent
  | b, [] => (b, [])
  | b, h :: rest =>
    let r := on_arrive hasCallback done b h
    let r2 := arrive_many hasCallback done r.1 rest
    (r2.1, r.2 ++ r2.2)

/-- How command-line parsing ended in `main`. -/
inductive CliOutcome where
  | helpRequested
  | parseError
  | parsedOk
deriving DecidableEq, Repr

/-- `src/app/main.cpp`: `-h` prints usage and returns 0; a bad or unknown
option returns 1; a requested YAML file that fails to load returns 1; an
exception escaping `GameEngine::run` returns 2; otherwise 0. -/
def main_exit_code (cli : CliOutcome) (yamlRequested yamlOk engineThrows : Bool) :
    Nat :=
  match cli with
  | CliOutcome.helpRequested => 0
  | CliOutcome.parseError => 1
  | CliOutcome.parsedOk =>
    if yamlRequested && !yamlOk then 1
    else if engineThrows then 2 else 0

/-- `Mafia (Task 1)/app/main.cpp`: `-h` returns 0; a bad or unknown option
returns 1; a YAML load failure is ignored (`(void)load_config_from_yaml`);
an exception escaping either engine returns 1; otherwise 0. -/
def task1_main_exit_code (cli : CliOutcome) (engineThrows : Bool) : Nat :=
  match cli with
  | CliOutcome.helpRequested => 0
  | CliOutcome.parseError => 1
  | CliOutcome.parsedOk => if engineThrows then 1 else 0

theorem getP_some_lt (ps : Players) (i : Nat) (p : Player)
    (h : getP ps i = some p) : i < ps.length := by
  by_contra hc
  rw [getP, List.getD_eq_default] at h
  · exact Option.noConfusion h
  · omega

theorem evaluate_winner_town_iff (ps : Players) :
    evaluate_winner ps = Winner.Town ↔
      alive_mafia_count ps = 0 ∧ alive_maniac_count ps = 0 := by
  dsimp only [evaluate_winner]
  split_ifs with h1 h2 h3 <;> simp_all

theorem evaluate_winner_maniac_iff (ps : Players) :
    evaluate_winner ps = Winner.Maniac ↔
      alive_mafia_count ps = 0 ∧ alive_maniac_count ps = 1 ∧
        alive_town_count ps = 1 := by
  dsimp only [evaluate_winner]
  split_ifs with h1 h2 h3 <;> simp_all
  all_goals omega

theorem evaluate_winner_mafia_iff (ps : Players) :
    evaluate_winner ps = Winner.Mafia ↔
      0 < alive_mafia_count ps ∧
        alive_town_count ps + alive_maniac_count ps ≤ alive_mafia_count ps := by
  dsimp only [evaluate_winner]
  split_ifs with h1 h2 h3 <;> simp_all

/-- C1: `evaluate_winner` returns, with the claimed priority, `Town` iff no
alive mafia and no alive maniac; `Maniac` iff no alive mafia, one alive maniac
and one alive townsperson; `Mafia` iff the alive mafia count is positive and
at least the sum of alive town and maniac counts; `None` otherwise.  (The
three winning conditions are mutually exclusive, so the priority order in the
code coincides with this case analysis.) -/
theorem C1_evaluate_winner_cases (ps : Players) :
    (evaluate_winner ps = Winner.Town ↔
      alive_mafia_count ps = 0 ∧ alive_maniac_count ps = 0) ∧
    (evaluate_winner ps = Winner.Maniac ↔
      alive_mafia_count ps = 0 ∧ alive_maniac_count ps = 1 ∧
        alive_town_count ps = 1) ∧
    (evaluate_winner ps = Winner.Mafia ↔
      0 < alive_mafia_count ps ∧
        alive_town_count ps + alive_maniac_count ps ≤ alive_mafia_count ps) ∧
    (evaluate_winner ps = Winner.None ↔
      ¬(alive_mafia_count ps = 0 ∧ alive_maniac_count ps = 0) ∧
      ¬(alive_mafia_count ps = 0 ∧ alive_maniac_count ps = 1 ∧
          alive_town_count ps = 1) ∧
      ¬(0 < alive_mafia_count ps ∧
          alive_town_count ps + alive_maniac_count ps ≤ alive_mafia_count ps)) := by
  refine ⟨evaluate_winner_town_iff ps, evaluate_winner_maniac_iff ps,
    evaluate_winner_mafia_iff ps, ?_⟩
  constructor
  · intro h
    refine ⟨?_, ?_, ?_⟩ <;> intro hc
    · exact absurd ((evaluate_winner_town_iff ps).mpr hc) (by simp [h])
    · exact absurd ((evaluate_winner_maniac_iff ps).mpr hc) (by simp [h])
    · exact absurd ((evaluate_winner_mafia_iff ps).mpr hc) (by simp [h])
  · intro ⟨h1, h2, h3⟩
    cases hw : evaluate_winner ps
    · rfl
    · rw [evaluate_winner_town_iff] at hw; exact absurd hw h1
    · rw [evaluate_winner_mafia_iff] at hw; exact absurd hw h3
    · rw [evaluate_winner_maniac_iff] at hw
      exact absurd ⟨hw.1, hw.2.1, hw.2.2⟩ h2

/-- C10: `investigate(d, t)` is true iff `t` is in range, present, alive and
on team Mafia; hence it reports a live Maniac as not Mafia, reports a dead
Mafia member as not Mafia, and never depends on the detective id. -/
theorem C10_investigate_characterisation (ps : Players) (d t : Nat) :
    (investigate ps d t = true ↔
      ∃ p, getP ps t = some p ∧ p.alive = true ∧ p.team = Team.Mafia) ∧
    (∀ p, getP ps t = some p → p.team = Team.Maniac →
      investigate ps d t = false) ∧
    (∀ p, getP ps t = some p → p.alive = false →
      investigate ps d t = false) ∧
    (∀ d', investigate ps d t = investigate ps d' t) := by
  refine ⟨?_, ?_, ?_, fun d' => rfl⟩
  · unfold investigate is_mafia
    cases h : getP ps t with
    | none => simp
    | some p =>
        simp only [Bool.and_eq_true, beq_iff_eq]
        constructor
        · intro hp; exact ⟨p, rfl, hp.1, hp.2⟩
        · intro ⟨q, hq, hal, htm⟩
          cases hq
          exact ⟨hal, htm⟩
  · intro p hp hman
    unfold investigate is_mafia
    rw [hp]
    simp [hman]
  · intro p hp hdead
    unfold investigate is_mafia
    rw [hp]
    simp [hdead]

/-- C4 fails on the code: with a single alive Citizen, a day vote for the
voter's own id passes every check in `submit_day_vote` and is recorded in
`day_votes_`, so the intent buffers do not stay unchanged. -/
theorem C4_counterexample_self_day_vote :
    (submit_day_vote [some ⟨Role.Citizen, Team.Town, true⟩] (init_mstate 1)
        0 0).day_votes = [some 0] ∧
      (init_mstate 1).day_votes = [none] := by
  constructor <;> rfl

/-- C4 amended: only `set_journalist_compare` (which also rejects equal
targets) and `set_eavesdropper_target` drop a self-targeting submission;
`submit_day_vote`, `mafia_vote_target`, `set_detective_shot` and
`set_maniac_target` accept a submission whose target equals the submitter's
id whenever the range/presence/aliveness (and mafia/maniac role) checks pass,
and the Doctor may heal themself. -/
theorem C4_self_target_rules :
    (∀ (ps : Players) (st : MState) (jid a b : Nat),
      a = b ∨ jid = a ∨ jid = b → set_journalist_compare ps st jid a b = st) ∧
    (∀ (ps : Players) (st : MState) (eid : Nat),
      set_eavesdropper_target ps st eid eid = st) ∧
    (∀ (ps : Players) (st : MState) (v : Nat) (p : Player),
      getP ps v = some p → p.alive = true →
      (submit_day_vote ps st v v).day_votes.getD v none = some v) ∧
    (∀ (ps : Players) (st : MState) (m : Nat) (p : Player),
      getP ps m = some p → p.alive = true → p.team = Team.Mafia →
      (mafia_vote_target ps st m m).journal =
        st.journal ++ [Entry.mafiaVote m m]) ∧
    (∀ (ps : Players) (st : MState) (d : Nat) (p : Player),
      getP ps d = some p → p.alive = true →
      (set_detective_shot ps st d d).detective_shot = some d) ∧
    (∀ (ps : Players) (st : MState) (d : Nat) (p : Player),
      getP ps d = some p → p.alive = true →
      (set_doctor_heal ps st d d).doctor_heal = some d) ∧
    (∀ (ps : Players) (st : MState) (m : Nat) (p : Player),
      getP ps m = some p → p.alive = true → p.team = Team.Maniac →
      (set_maniac_target ps st m m).maniac_target = some m) := by
  refine ⟨?_, ?_, ?_, ?_, ?_, ?_, ?_⟩
  · intro ps st jid a b h
    unfold set_journalist_compare
    split_ifs <;> simp_all
  · intro ps st eid
    unfold set_eavesdropper_target
    split_ifs <;> simp_all
  · intro ps st v p hp hal
    have hlt : v < ps.length := getP_some_lt ps v p hp
    have hnle : ¬ (ps.length ≤ v ∨ ps.length ≤ v) := by omega
    unfold submit_day_vote
    simp only [hp, if_neg hnle, hal, Bool.and_self, if_pos]
    have hdv : (if st.day_votes.length ≠ ps.length
        then resizeOpt st.day_votes ps.length else st.day_votes).length =
        ps.length := by
      split
      · simp [resizeOpt]
        omega
      · omega
    rw [List.getD_eq_getElem?_getD, List.getElem?_set_self, Option.getD_some]
    omega
  · intro ps st m p hp hal htm
    have hlt : m < ps.length := getP_some_lt ps m p hp
    have hnle : ¬ (ps.length ≤ m ∨ ps.length ≤ m) := by omega
    have hmaf : is_mafia ps m = true := by
      unfold is_mafia
      rw [hp]
      simp [hal, htm]
    unfold mafia_vote_target
    simp only [hp, if_neg hnle, hal, Bool.and_self, if_pos, hmaf, if_true]
  · intro ps st d p hp hal
    have hnle : ¬ (ps.length ≤ d ∨ ps.length ≤ d) := by
      have := getP_some_lt ps d p hp
      omega
    unfold set_detective_shot
    simp only [hp, if_neg hnle, hal, Bool.and_self, if_pos]
  · intro ps st d p hp hal
    have hnle : ¬ (ps.length ≤ d ∨ ps.length ≤ d) := by
      have := getP_some_lt ps d p hp
      omega
    unfold set_doctor_heal
    simp only [hp, if_neg hnle, hal, Bool.and_self, if_pos]
  · intro ps st m p hp hal htm
    have hnle : ¬ (ps.length ≤ m ∨ ps.length ≤ m) := by
      have := getP_some_lt ps m p hp
      omega
    have hman : is_maniac ps m = true := by
      unfold is_maniac
      rw [hp]
      simp [hal, htm]
    unfold set_maniac_target
    simp only [hp, if_neg hnle, hal, Bool.and_self, if_pos, hman, if_true]

/-- Concrete instantiation of the amended C4 rules on a four-player game. -/
theorem C4_self_target_rules_witness :
    (set_journalist_compare
        [some ⟨Role.Mafia, Team.Mafia, true⟩, some ⟨Role.Maniac, Team.Maniac, true⟩,
         some ⟨Role.Citizen, Team.Town, true⟩, some ⟨Role.Detective, Team.Town, true⟩]
        (init_mstate 4) 2 2 3 = init_mstate 4) ∧
    (set_eavesdropper_target
        [some ⟨Role.Mafia, Team.Mafia, true⟩, some ⟨Role.Maniac, Team.Maniac, true⟩,
         some ⟨Role.Citizen, Team.Town, true⟩, some ⟨Role.Detective, Team.Town, true⟩]
        (init_mstate 4) 2 2 = init_mstate 4) ∧
    ((submit_day_vote
        [some ⟨Role.Mafia, Team.Mafia, true⟩, some ⟨Role.Maniac, Team.Maniac, true⟩,
         some ⟨Role.Citizen, Team.Town, true⟩, some ⟨Role.Detective, Team.Town, true⟩]
        (init_mstate 4) 2 2).day_votes.getD 2 none = some 2) ∧
    ((mafia_vote_target
        [some ⟨Role.Mafia, Team.Mafia, true⟩, some ⟨Role.Maniac, Team.Maniac, true⟩,
         some ⟨Role.Citizen, Team.Town, true⟩, some ⟨Role.Detective, Team.Town, true⟩]
        (init_mstate 4) 0 0).journal = [Entry.mafiaVote 0 0]) ∧
    ((set_detective_shot
        [some ⟨Role.Mafia, Team.Mafia, true⟩, some ⟨Role.Maniac, Team.Maniac, true⟩,
         some ⟨Role.Citizen, Team.Town, true⟩, some ⟨Role.Detective, Team.Town, true⟩]
        (init_mstate 4) 3 3).detective_shot = some 3) ∧
    ((set_doctor_heal
        [some ⟨Role.Mafia, Team.Mafia, true⟩, some ⟨Role.Maniac, Team.Maniac, true⟩,
         some ⟨Role.Citizen, Team.Town, true⟩, some ⟨Role.Detective, Team.Town, true⟩]
        (init_mstate 4) 3 3).doctor_heal = some 3) ∧
    ((set_maniac_target
        [some ⟨Role.Mafia, Team.Mafia, true⟩, some ⟨Role.Maniac, Team.Maniac, true⟩,
         some ⟨Role.Citizen, Team.Town, true⟩, some ⟨Role.Detective, Team.Town, true⟩]
        (init_mstate 4) 1 1).maniac_target = some 1) := by
  refine ⟨C4_self_target_rules.1 _ _ 2 2 3 (Or.inr (Or.inl rfl)),
    C4_self_target_rules.2.1 _ _ 2,
    C4_self_target_rules.2.2.1 _ _ 2 ⟨Role.Citizen, Team.Town, true⟩ rfl rfl,
    ?_,
    C4_self_target_rules.2.2.2.2.1 _ _ 3 ⟨Role.Detective, Team.Town, true⟩ rfl rfl,
    C4_self_target_rules.2.2.2.2.2.1 _ _ 3 ⟨Role.Detective, Team.Town, true⟩ rfl rfl,
    C4_self_target_rules.2.2.2.2.2.2 _ _ 1 ⟨Role.Maniac, Team.Maniac, true⟩ rfl rfl rfl⟩
  have h := C4_self_target_rules.2.2.2.1
    [some ⟨Role.Mafia, Team.Mafia, true⟩, some ⟨Role.Maniac, Team.Maniac, true⟩,
     some ⟨Role.Citizen, Team.Town, true⟩, some ⟨Role.Detective, Team.Town, true⟩]
    (init_mstate 4) 0 ⟨Role.Mafia, Team.Mafia, true⟩ rfl rfl rfl
  simpa [init_mstate] using h

theorem exec_check_mem (ps : Players) (decide : Nat → List Nat → Option Nat)
    (leaders : List Nat) (i v : Nat)
    (h : exec_check ps decide leaders i = some v) : v ∈ leaders := by
  unfold exec_check at h
  rcases hg : getP ps i with _ | p <;> simp [hg] at h
  obtain ⟨-, h⟩ := h
  rcases hd : decide i leaders with _ | w <;> simp [hd] at h
  exact h.2 ▸ h.1

theorem findSome?_pred {α β : Type} (g : α → Option β) (P : β → Prop)
    (hg : ∀ a b, g a = some b → P b) :
    ∀ (l : List α) (b : β), l.findSome? g = some b → P b := by
  intro l
  induction l with
  | nil => intro b h; simp [List.findSome?_nil] at h
  | cons a t ih =>
      intro b h
      rw [List.findSome?_cons] at h
      cases hga : g a with
      | none => rw [hga] at h; exact ih b h
      | some c =>
          rw [hga] at h
          injection h with h2
          subst h2
          exact hg a _ hga

theorem exec_tie_spec_mem (ps : Players) (decide : Nat → List Nat → Option Nat)
    (leaders : List Nat) (v : Nat)
    (h : exec_tie_spec ps decide leaders = some v) : v ∈ leaders :=
  findSome?_pred (exec_check ps decide leaders) (· ∈ leaders)
    (exec_check_mem ps decide leaders) (List.range ps.length) v h

theorem exec_tie_loop_fst (ps : Players) (decide : Nat → List Nat → Option Nat)
    (leaders : List Nat) :
    ∀ l : List Nat,
      (exec_tie_loop ps decide leaders l).1 =
        l.findSome? (exec_check ps decide leaders) := by
  intro l
  induction l with
  | nil => rfl
  | cons i rest ih =>
      simp only [exec_tie_loop]
      rcases hg : getP ps i with _ | p
      · simp [List.findSome?_cons, exec_check, hg, ih]
      · rcases hc : (p.alive && p.role == Role.Executioner)
        · simp [List.findSome?_cons, exec_check, hg, hc, ih]
        · rcases hd : decide i leaders with _ | v
          · simp [List.findSome?_cons, exec_check, hg, hc, hd, ih]
          · by_cases hm : v ∈ leaders
            · simp [List.findSome?_cons, exec_check, hg, hc, hd, hm]
            · simp [List.findSome?_cons, exec_check, hg, hc, hd, hm, ih]

theorem resolve_tie_fst_eq_spec (ps : Players)
    (decide : Nat → List Nat → Option Nat) (leaders : List Nat) :
    (resolve_tie_via_executioner ps decide leaders).1 =
      exec_tie_spec ps decide leaders :=
  exec_tie_loop_fst ps decide leaders (List.range ps.length)

/-- C2: on a day tie under `tie_policy = None`, `resolve_day_lynch` is decided
by the first alive Executioner (in id order) whose `decide_execution(leaders)`
choice lies inside the leader set (`exec_tie_spec`): that choice is lynched,
and if every Executioner abstains or chooses outside the set, the result is
`none` and the player vector is unchanged. -/
theorem C2_day_tie_executioner
    (ps : Players) (st : MState) (decide : Nat → List Nat → Option Nat)
    (choose : List Nat → Nat)
    (hmax : list_max (day_tally ps (day_votes_snapshot ps st)) ≠ 0)
    (htie : 1 < (day_leaders (day_tally ps (day_votes_snapshot ps st))).length) :
    (∀ v, exec_tie_spec ps decide
        (day_leaders (day_tally ps (day_votes_snapshot ps st))) = some v →
      (resolve_day_lynch TiePolicy.none ps st decide choose).1 = some v ∧
      (resolve_day_lynch TiePolicy.none ps st decide choose).2.1 =
        kill_player ps v ∧
      v ∈ day_leaders (day_tally ps (day_votes_snapshot ps st))) ∧
    (exec_tie_spec ps decide
        (day_leaders (day_tally ps (day_votes_snapshot ps st))) = Option.none →
      (resolve_day_lynch TiePolicy.none ps st decide choose).1 = Option.none ∧
      (resolve_day_lynch TiePolicy.none ps st decide choose).2.1 = ps) := by
  have key := resolve_tie_fst_eq_spec ps decide
    (day_leaders (day_tally ps (day_votes_snapshot ps st)))
  constructor
  · intro v hv
    refine ⟨?_, ?_, exec_tie_spec_mem _ _ _ _ hv⟩ <;>
      · dsimp only [resolve_day_lynch]
        rw [if_neg hmax, if_pos htie]
        rw [key.trans hv]
  · intro hv
    constructor <;>
      · dsimp only [resolve_day_lynch]
        rw [if_neg hmax, if_pos htie]
        rw [key.trans hv]

/-- Concrete instantiation of C2: five players, votes tied between 0 and 1,
the Executioner (id 4) picks 0, who is lynched. -/
theorem C2_day_tie_executioner_witness :
    (resolve_day_lynch TiePolicy.none
      [some ⟨Role.Citizen, Team.Town, true⟩, some ⟨Role.Citizen, Team.Town, true⟩,
       some ⟨Role.Citizen, Team.Town, true⟩, some ⟨Role.Citizen, Team.Town, true⟩,
       some ⟨Role.Executioner, Team.Town, true⟩]
      { init_mstate 5 with day_votes := [some 1, some 0, Option.none, Option.none, Option.none] }
      (fun _ _ => some 0) (fun _ => 0)).1 = some 0 := by
  have h := (C2_day_tie_executioner
    [some ⟨Role.Citizen, Team.Town, true⟩, some ⟨Role.Citizen, Team.Town, true⟩,
     some ⟨Role.Citizen, Team.Town, true⟩, some ⟨Role.Citizen, Team.Town, true⟩,
     some ⟨Role.Executioner, Team.Town, true⟩]
    { init_mstate 5 with day_votes := [some 1, some 0, Option.none, Option.none, Option.none] }
    (fun _ _ => some 0) (fun _ => 0) (by decide) (by decide)).1 0 (by decide)
  exact h.1

/-- C3: if the snapshotted `doctor_heal` is `some h` and `h` is alive, then
`h` is not among the night's deaths — however many of the three kill sources
marked `h` — and the `heal-cancels` journal line is emitted whether or not a
kill was cancelled. -/
theorem C3_heal_excludes (ps : Players) (st : MState)
    (choose : List Nat → Nat) (h : Nat)
    (hdoc : st.doctor_heal = some h) (halive : is_alive ps h = true) :
    h ∉ (resolve_night ps st choose).1 ∧
      Entry.healCancels h ∈ (resolve_night ps st choose).2.2.journal := by
  constructor
  · dsimp only [resolve_night]
    rw [hdoc]
    simp only [List.mem_filter, not_and]
    intro _
    simp [healFun, halive]
  · dsimp only [resolve_night]
    rw [hdoc]
    simp [heal_entries, halive]

/-- Concrete instantiation of C3: the Doctor (id 0) heals themself while the
mafia tally points at them; they survive and the heal line is journalled. -/
theorem C3_heal_excludes_witness :
    0 ∉ (resolve_night
        [some ⟨Role.Doctor, Team.Town, true⟩, some ⟨Role.Mafia, Team.Mafia, true⟩]
        { init_mstate 2 with doctor_heal := some 0, mafia_vote_counts := [2, 0] }
        (fun l => l.headD 0)).1 ∧
      Entry.healCancels 0 ∈ (resolve_night
        [some ⟨Role.Doctor, Team.Town, true⟩, some ⟨Role.Mafia, Team.Mafia, true⟩]
        { init_mstate 2 with doctor_heal := some 0, mafia_vote_counts := [2, 0] }
        (fun l => l.headD 0)).2.2.journal :=
  C3_heal_excludes
    [some ⟨Role.Doctor, Team.Town, true⟩, some ⟨Role.Mafia, Team.Mafia, true⟩]
    { init_mstate 2 with doctor_heal := some 0, mafia_vote_counts := [2, 0] }
    (fun l => l.headD 0) 0 rfl rfl

theorem doctor_cands_some (alive : List Nat) (p : Nat) :
    doctor_cands alive (some p) =
      if 1 < alive.length then
        (if (alive.filter (fun x => x ≠ p)).isEmpty then [p]
         else alive.filter (fun x => x ≠ p))
      else alive := rfl

theorem doctor_on_night_fst (id_ : Nat) (alive : List Nat) (prev : Option Nat)
    (choose : List Nat → Option Nat) (t : Nat)
    (hct : choose (doctor_cands alive prev) = some t) :
    (doctor_on_night id_ alive prev choose).1 = some t := by
  unfold doctor_on_night
  rw [hct]

/-- C6 fails on the code: when the Doctor is the only alive player and their
previous heal target is themself (`alive \ {previous}` is empty), `on_night`
submits a heal — repeating the previous target — instead of skipping. -/
theorem C6_counterexample_forced_repeat :
    List.filter (fun x => x ≠ 0) [0] = [] ∧
      (doctor_on_night 0 [0] (some 0) List.head?).1 = some 0 := by
  constructor <;> rfl

/-- C6 amended: the Doctor always submits a heal.  When a previous target `p`
exists and `alive \ {p}` is non-empty, the target is drawn from
`alive \ {p}` (self permitted); when `alive \ {p}` is empty the previous
target is healed again (forced repeat) rather than skipping; with no
previous target the draw is from all alive players. -/
theorem C6_doctor_no_skip (id_ : Nat) (alive : List Nat)
    (choose : List Nat → Option Nat)
    (hch : ∀ l, l ≠ [] → ∃ t, choose l = some t ∧ t ∈ l) :
    (∀ p, alive.filter (fun x => x ≠ p) ≠ [] →
      ∃ t, (doctor_on_night id_ alive (some p) choose).1 = some t ∧
        t ∈ alive ∧ t ≠ p) ∧
    (∀ p, alive ≠ [] → alive.filter (fun x => x ≠ p) = [] →
      (doctor_on_night id_ alive (some p) choose).1 = some p) ∧
    (alive ≠ [] →
      ∃ t, (doctor_on_night id_ alive Option.none choose).1 = some t ∧
        t ∈ alive) := by
  refine ⟨?_, ?_, ?_⟩
  · intro p hne
    by_cases hl : 1 < alive.length
    · have hie : (alive.filter (fun x => x ≠ p)).isEmpty = false := by
        rcases he : (alive.filter (fun x => x ≠ p)).isEmpty
        · rfl
        · exact absurd (List.isEmpty_iff.mp he) hne
      have hcands : doctor_cands alive (some p) =
          alive.filter (fun x => x ≠ p) := by
        rw [doctor_cands_some, if_pos hl, hie]
        simp
      obtain ⟨t, hct0, hmem⟩ := hch (doctor_cands alive (some p))
        (by rw [hcands]; exact hne)
      refine ⟨t, doctor_on_night_fst _ _ _ _ _ hct0, ?_, ?_⟩
      · rw [hcands] at hmem
        exact (List.mem_filter.mp hmem).1
      · rw [hcands] at hmem
        have := (List.mem_filter.mp hmem).2
        simpa using this
    · have hcands : doctor_cands alive (some p) = alive := by
        rw [doctor_cands_some, if_neg hl]
      have halne : alive ≠ [] := by
        intro h0
        rw [h0] at hne
        exact hne rfl
      rcases alive with _ | ⟨x, rest⟩
      · exact absurd rfl halne
      · rcases rest with _ | ⟨y, rest2⟩
        · have hxp : x ≠ p := by
            intro hxp
            subst hxp
            simp at hne
          obtain ⟨t, hct0, hmem⟩ := hch (doctor_cands [x] (some p))
            (by rw [hcands]; simp)
          rw [hcands] at hmem
          have htx : t = x := by simpa using hmem
          refine ⟨t, doctor_on_night_fst _ _ _ _ _ hct0, hmem, ?_⟩
          rw [htx]
          exact hxp
        · exfalso
          apply hl
          simp
  · intro p halne hfil
    have hall : ∀ x ∈ alive, x = p := by
      intro x hx
      have := List.filter_eq_nil_iff.mp hfil x hx
      simpa using this
    by_cases hl : 1 < alive.length
    · have hie : (alive.filter (fun x => x ≠ p)).isEmpty = true := by
        rw [List.isEmpty_iff]
        exact hfil
      have hcands : doctor_cands alive (some p) = [p] := by
        rw [doctor_cands_some, if_pos hl, hie]
        simp
      obtain ⟨t, hct0, hmem⟩ := hch (doctor_cands alive (some p))
        (by rw [hcands]; simp)
      rw [hcands] at hmem
      have htp : t = p := by simpa using hmem
      have := doctor_on_night_fst id_ alive (some p) choose t hct0
      rw [htp] at this
      exact this
    · have hcands : doctor_cands alive (some p) = alive := by
        rw [doctor_cands_some, if_neg hl]
      obtain ⟨t, hct0, hmem⟩ := hch (doctor_cands alive (some p))
        (by rw [hcands]; exact halne)
      rw [hcands] at hmem
      have htp : t = p := hall t hmem
      have := doctor_on_night_fst id_ alive (some p) choose t hct0
      rw [htp] at this
      exact this
  · intro halne
    obtain ⟨t, hct0, hmem⟩ := hch alive halne
    exact ⟨t, doctor_on_night_fst _ _ _ _ _ hct0, hmem⟩

/-- Concrete instantiation of the amended C6 on `head?` as the RNG draw. -/
theorem C6_doctor_no_skip_witness :
    (∃ t, (doctor_on_night 0 [0, 1] (some 0) List.head?).1 = some t ∧
      t ∈ [0, 1] ∧ t ≠ 0) ∧
    (doctor_on_night 7 [3] (some 3) List.head?).1 = some 3 ∧
    (∃ t, (doctor_on_night 0 [0, 1] Option.none List.head?).1 = some t ∧
      t ∈ [0, 1]) := by
  have hch : ∀ l : List Nat, l ≠ [] → ∃ t, List.head? l = some t ∧ t ∈ l := by
    intro l hl
    rcases l with _ | ⟨a, t⟩
    · exact absurd rfl hl
    · exact ⟨a, rfl, List.mem_cons_self a t⟩
  refine ⟨(C6_doctor_no_skip 0 [0, 1] List.head? hch).1 0 (by decide),
    (C6_doctor_no_skip 7 [3] List.head? hch).2.1 3 (by decide) (by decide),
    (C6_doctor_no_skip 0 [0, 1] List.head? hch).2.2 (by decide)⟩

theorem round_write_file_inv (ok : Bool) (s : RoundFile) (h : RoundInv s) :
    RoundInv (round_write_file ok s) := by
  obtain ⟨h1, h2, h3⟩ := h
  unfold round_write_file
  split_ifs with hw hok
  · exact ⟨h1, h2, h3⟩
  · refine ⟨h1, h2, ?_⟩
    intro h0
    simp at h0
  · have hwf : s.round_written = false := by
      simpa using hw
    refine ⟨?_, ?_, ?_⟩
    · show ∀ r ∈ s.writes ++ [s.round_index], r ≤ s.round_index
      intro r hr
      rcases List.mem_append.mp hr with hr | hr
      · exact h1 r hr
      · simp at hr
        simp [hr]
    · show (s.writes ++ [s.round_index]).Nodup
      rw [← List.concat_eq_append]
      exact List.Nodup.concat (h3 hwf) h2
    · intro h0
      simp at h0

theorem round_step_inv (s : RoundFile) (op : RoundOp) (h : RoundInv s) :
    RoundInv (round_step s op) := by
  rcases op with _ | ok | ok
  · obtain ⟨h1, h2, h3⟩ := h
    refine ⟨?_, h2, ?_⟩
    · intro r hr
      simp only [round_step, round_begin_day] at hr ⊢
      have := h1 r hr
      omega
    · intro _
      simp only [round_step, round_begin_day]
      intro hmem
      have := h1 _ hmem
      omega
  · exact round_write_file_inv ok s h
  · simp only [round_step, finalize_round_file_if_pending]
    split
    · exact round_write_file_inv ok s h
    · exact h

theorem round_run_inv (ops : List RoundOp) : RoundInv (round_run ops) := by
  have gen : ∀ (l : List RoundOp) (s : RoundFile), RoundInv s →
      RoundInv (l.foldl round_step s) := by
    intro l
    induction l with
    | nil => intro s hs; exact hs
    | cons op t ih =>
        intro s hs
        exact ih (round_step s op) (round_step_inv s op hs)
  refine gen ops ⟨0, false, []⟩ ⟨?_, ?_, ?_⟩ <;> simp

/-- C7: over any sequence of round operations each round index is flushed to
disk at most once (the write history stays duplicate-free); a write on an
already-written round is a no-op (for both `round_write_file_` and
`finalize_round_file_if_pending`); a write on an unwritten round flushes
exactly that round index; and a failed open still marks the round written
without writing, so the write is never retried. -/
theorem C7_round_file_once :
    (∀ ops : List RoundOp, (round_run ops).writes.Nodup) ∧
    (∀ (s : RoundFile) (ok : Bool), s.round_written = true →
      round_write_file ok s = s ∧ finalize_round_file_if_pending ok s = s) ∧
    (∀ s : RoundFile, s.round_written = false →
      (round_write_file true s).round_written = true ∧
      (round_write_file true s).writes = s.writes ++ [s.round_index]) ∧
    (∀ s : RoundFile, s.round_written = false →
      (round_write_file false s).round_written = true ∧
      (round_write_file false s).writes = s.writes) := by
  refine ⟨fun ops => (round_run_inv ops).2.1, ?_, ?_, ?_⟩
  · intro s ok hw
    constructor
    · unfold round_write_file
      rw [if_pos hw]
    · unfold finalize_round_file_if_pending
      rw [if_neg]
      simp [hw]
  · intro s hw
    unfold round_write_file
    rw [if_neg (by simp [hw]), if_neg (by simp)]
    exact ⟨rfl, rfl⟩
  · intro s hw
    unfold round_write_file
    rw [if_neg (by simp [hw]), if_pos (by simp)]
    exact ⟨rfl, rfl⟩

/-- Concrete instantiation of C7 on a two-round trace and on written /
unwritten states. -/
theorem C7_round_file_once_witness :
    (round_run [RoundOp.beginDay, RoundOp.writeNight true,
      RoundOp.finalizePending true, RoundOp.beginDay,
      RoundOp.writeNight false]).writes.Nodup ∧
    round_write_file true ⟨1, true, [1]⟩ = ⟨1, true, [1]⟩ ∧
    finalize_round_file_if_pending true ⟨1, true, [1]⟩ = ⟨1, true, [1]⟩ ∧
    (round_write_file true ⟨2, false, [1]⟩).writes = [1, 2] ∧
    (round_write_file false ⟨2, false, [1]⟩).writes = [1] := by
  refine ⟨C7_round_file_once.1 _,
    (C7_round_file_once.2.1 ⟨1, true, [1]⟩ true rfl).1,
    (C7_round_file_once.2.1 ⟨1, true, [1]⟩ true rfl).2,
    ?_,
    (C7_round_file_once.2.2.2 ⟨2, false, [1]⟩ rfl).2⟩
  have h := (C7_round_file_once.2.2.1 ⟨2, false, [1]⟩ rfl).2
  simpa using h

theorem on_arrive_mid (hasCallback : Bool) (done : Nat → Bool)
    (e a : Nat) (ws : List Nat) (h : Nat) (hne : a + 1 ≠ e) :
    on_arrive hasCallback done ⟨e, a, ws⟩ h = (⟨e, a + 1, ws ++ [h]⟩, []) := by
  unfold on_arrive
  rw [if_neg hne]

theorem on_arrive_last (hasCallback : Bool) (done : Nat → Bool)
    (e a : Nat) (ws : List Nat) (h : Nat) (heq : a + 1 = e) :
    on_arrive hasCallback done ⟨e, a, ws⟩ h =
      (⟨e, 0, []⟩,
        (if hasCallback then [BEvent.callback] else []) ++
          ((ws ++ [h]).filter (fun x => !done x)).map BEvent.resume) := by
  unfold on_arrive
  rw [if_pos heq]

theorem arrive_many_cons (hasCallback : Bool) (done : Nat → Bool)
    (b : Barrier) (h : Nat) (rest : List Nat) :
    arrive_many hasCallback done b (h :: rest) =
      ((arrive_many hasCallback done
          (on_arrive hasCallback done b h).1 rest).1,
        (on_arrive hasCallback done b h).2 ++
          (arrive_many hasCallback done
            (on_arrive hasCallback done b h).1 rest).2) := rfl

theorem arrive_many_below (hasCallback : Bool) (done : Nat → Bool)
    (N : Nat) :
    ∀ (pre w : List Nat), w.length + pre.length < N →
      arrive_many hasCallback done ⟨N, w.length, w⟩ pre =
        (⟨N, w.length + pre.length, w ++ pre⟩, []) := by
  intro pre
  induction pre with
  | nil =>
      intro w _
      simp [arrive_many]
  | cons h t ih =>
      intro w hlt
      have hne2 : w.length + 1 ≠ N := by
        simp at hlt
        omega
      have ih2 := ih (w ++ [h]) (by simp at hlt ⊢; omega)
      simp only [List.length_append, List.length_cons, List.length_nil] at ih2
      simp only [arrive_many_cons,
        on_arrive_mid hasCallback done N w.length w h hne2, ih2]
      simp [List.append_assoc]
      omega

theorem arrive_many_complete (hasCallback : Bool) (done : Nat → Bool)
    (N : Nat) (hnd : ∀ h, done h = false) :
    ∀ (rest w : List Nat), rest ≠ [] → w.length + rest.length = N →
      arrive_many hasCallback done ⟨N, w.length, w⟩ rest =
        (⟨N, 0, []⟩, (if hasCallback then [BEvent.callback] else []) ++
          (w ++ rest).map BEvent.resume) := by
  intro rest
  induction rest with
  | nil => intro w hne _; exact absurd rfl hne
  | cons h t ih =>
      intro w _ hlen
      rcases t with _ | ⟨h2, t2⟩
      · have heq : w.length + 1 = N := by
          simp at hlen
          omega
        have hfil : (w ++ [h]).filter (fun x => !done x) = w ++ [h] := by
          apply List.filter_eq_self.mpr
          intro a _
          simp [hnd a]
        simp only [arrive_many_cons,
          on_arrive_last hasCallback done N w.length w h heq, hfil]
        simp [arrive_many]
      · have hne2 : w.length + 1 ≠ N := by
          simp at hlen
          omega
        have ih2 := ih (w ++ [h]) (by simp) (by simp at hlen ⊢; omega)
        simp only [List.length_append, List.length_cons, List.length_nil] at ih2
        simp only [arrive_many_cons,
          on_arrive_mid hasCallback done N w.length w h hne2, ih2]
        simp

/-- C8: for the cooperative `PhaseBarrier` with `expected = N` and an
`on_complete` callback, a full arrival cycle of `N` live coroutines runs the
callback exactly once — emitted by the Nth `arrive()`, after the counter and
waiter list are reset and before any resumption — and then resumes all `N`
waiters (the Nth arriver included) in arrival order; every proper prefix of
the cycle emits no event at all. -/
theorem C8_phase_barrier (done : Nat → Bool) (N : Nat) (hs : List Nat)
    (hnd : ∀ h, done h = false) (hlen : hs.length = N) (hne : hs ≠ []) :
    arrive_many true done ⟨N, 0, []⟩ hs =
      (⟨N, 0, []⟩, BEvent.callback :: hs.map BEvent.resume) ∧
    (∀ pre suf, hs = pre ++ suf → suf ≠ [] →
      arrive_many true done ⟨N, 0, []⟩ pre =
        (⟨N, pre.length, pre⟩, [])) := by
  constructor
  · have h := arrive_many_complete true done N hnd hs [] hne (by simpa using hlen)
    simpa using h
  · intro pre suf hsplit hsufne
    have hlt : pre.length < N := by
      have : hs.length = pre.length + suf.length := by
        rw [hsplit]; simp
      rcases suf with _ | ⟨a, b⟩
      · exact absurd rfl hsufne
      · simp at this; omega
    have h := arrive_many_below true done N pre [] (by simpa using hlt)
    simpa using h

/-- Concrete instantiation of C8: a two-party barrier with handles 10, 20. -/
theorem C8_phase_barrier_witness :
    arrive_many true (fun _ => false) ⟨2, 0, []⟩ [10, 20] =
      (⟨2, 0, []⟩, [BEvent.callback, BEvent.resume 10, BEvent.resume 20]) ∧
    arrive_many true (fun _ => false) ⟨2, 0, []⟩ [10] = (⟨2, 1, [10]⟩, []) := by
  have h := C8_phase_barrier (fun _ => false) 2 [10, 20] (fun _ => rfl) rfl
    (by simp)
  exact ⟨h.1, h.2 [10] [20] rfl (by simp)⟩

/-- C9 fails on the Task 1 entry point: a runtime exception escaping the
engine yields exit code 1 there, not 2. -/
theorem C9_counterexample_task1_exception :
    task1_main_exit_code CliOutcome.parsedOk true = 1 ∧
      task1_main_exit_code CliOutcome.parsedOk true ≠ 2 := by
  constructor
  · rfl
  · decide

/-- C9 amended: `src/app/main.cpp` exits 0 on success (including `--help`),
1 on a configuration error (bad CLI option or failed YAML load; the match
does not start) and 2 when a runtime exception escapes the engine; the
Task 1 entry point instead exits 1 both on a configuration error and on a
runtime exception. -/
theorem C9_exit_codes :
    (∀ yr yo et, main_exit_code CliOutcome.helpRequested yr yo et = 0) ∧
    (∀ yr yo et, main_exit_code CliOutcome.parseError yr yo et = 1) ∧
    (∀ et, main_exit_code CliOutcome.parsedOk true false et = 1) ∧
    (∀ yr yo, yr = false ∨ yo = true →
      main_exit_code CliOutcome.parsedOk yr yo true = 2 ∧
      main_exit_code CliOutcome.parsedOk yr yo false = 0) ∧
    (∀ et, task1_main_exit_code CliOutcome.parsedOk et =
      if et then 1 else 0) ∧
    (∀ et, task1_main_exit_code CliOutcome.helpRequested et = 0) ∧
    (∀ et, task1_main_exit_code CliOutcome.parseError et = 1) := by
  refine ⟨fun _ _ _ => rfl, fun _ _ _ => rfl, fun _ => rfl, ?_,
    fun _ => rfl, fun _ => rfl, fun _ => rfl⟩
  intro yr yo h
  rcases h with h | h <;> subst h <;>
    first
      | exact ⟨rfl, rfl⟩
      | (constructor <;> simp [main_exit_code])

/-- Concrete instantiation of the amended C9 exit codes. -/
theorem C9_exit_codes_witness :
    main_exit_code CliOutcome.parsedOk false true true = 2 ∧
      main_exit_code CliOutcome.parsedOk false true false = 0 :=
  C9_exit_codes.2.2.2.1 false true (Or.inl rfl)

/-- C5: with a permutation-only shuffle and the extra-role counts configured
as 0 or 1, a successful setup yields exactly `max(1, N / max(3, k_div))`
Mafia, one Detective, one Doctor, one Maniac, the configured number of each
of Executioner / Journalist / Eavesdropper, and Citizens filling the rest so
the total is `N`; if the non-Citizen roles sum to more than `N`, setup fails
with an exception. -/
theorem C5_role_census (cfg : GameConfig) (shuffle : List Role → List Role)
    (hsh : ∀ l, List.Perm (shuffle l) l)
    (he : cfg.executioner_count ≤ 1) (hj : cfg.journalist_count ≤ 1)
    (hv : cfg.eavesdropper_count ≤ 1) :
    (∀ bag, setup_players cfg shuffle = Except.ok bag →
      bag.length = cfg.n_players ∧
      bag.count Role.Mafia =
        max 1 (cfg.n_players / max 3 cfg.k_mafia_divisor) ∧
      bag.count Role.Detective = 1 ∧
      bag.count Role.Doctor = 1 ∧
      bag.count Role.Maniac = 1 ∧
      bag.count Role.Executioner = cfg.executioner_count ∧
      bag.count Role.Journalist = cfg.journalist_count ∧
      bag.count Role.Eavesdropper = cfg.eavesdropper_count ∧
      bag.count Role.Citizen = cfg.n_players -
        (max 1 (cfg.n_players / max 3 cfg.k_mafia_divisor) + 3 +
          cfg.executioner_count + cfg.journalist_count +
          cfg.eavesdropper_count)) ∧
    (cfg.n_players < max 1 (cfg.n_players / max 3 cfg.k_mafia_divisor) + 3 +
        cfg.executioner_count + cfg.journalist_count +
        cfg.eavesdropper_count →
      ∃ e, setup_players cfg shuffle = Except.error e) := by
  constructor
  · intro bag hok
    simp only [setup_players] at hok
    rw [Nat.min_eq_left he, Nat.min_eq_left hj, Nat.min_eq_left hv] at hok
    by_cases hcond : cfg.n_players <
        max 1 (cfg.n_players / max 3 cfg.k_mafia_divisor) + 1 + 1 + 1 +
          cfg.executioner_count + cfg.journalist_count + cfg.eavesdropper_count
    · rw [if_pos hcond] at hok
      exact Except.noConfusion hok
    · rw [if_neg hcond] at hok
      injection hok with hbag
      subst hbag
      refine ⟨?_, ?_, ?_, ?_, ?_, ?_, ?_, ?_, ?_⟩
      · rw [(hsh _).length_eq]
        simp only [List.length_append, List.length_replicate]
        generalize hm : max 1 (cfg.n_players / max 3 cfg.k_mafia_divisor) = m
          at hcond ⊢
        omega
      · rw [(hsh _).count_eq]
        simp [List.count_append, List.count_replicate]
      · rw [(hsh _).count_eq]
        simp [List.count_append, List.count_replicate]
      · rw [(hsh _).count_eq]
        simp [List.count_append, List.count_replicate]
      · rw [(hsh _).count_eq]
        simp [List.count_append, List.count_replicate]
      · rw [(hsh _).count_eq]
        simp [List.count_append, List.count_replicate]
      · rw [(hsh _).count_eq]
        simp [List.count_append, List.count_replicate]
      · rw [(hsh _).count_eq]
        simp [List.count_append, List.count_replicate]
      · rw [(hsh _).count_eq]
        simp [List.count_append, List.count_replicate]
  · intro hlt
    refine ⟨"not enough slots for mandatory + extra roles", ?_⟩
    simp only [setup_players]
    rw [Nat.min_eq_left he, Nat.min_eq_left hj, Nat.min_eq_left hv]
    have hcond : cfg.n_players <
        max 1 (cfg.n_players / max 3 cfg.k_mafia_divisor) + 1 + 1 + 1 +
          cfg.executioner_count + cfg.journalist_count +
          cfg.eavesdropper_count := by
      generalize max 1 (cfg.n_players / max 3 cfg.k_mafia_divisor) = m at hlt ⊢
      omega
    rw [if_pos hcond]

/-- Concrete instantiation of C5: nine players, `k_div = 3` and all three
extra roles enabled give 3 Mafia, the six singleton roles and no Citizen. -/
theorem C5_role_census_witness :
    ([Role.Mafia, Role.Mafia, Role.Mafia, Role.Detective, Role.Doctor,
        Role.Maniac, Role.Executioner, Role.Journalist,
        Role.Eavesdropper].length = 9) ∧
    ([Role.Mafia, Role.Mafia, Role.Mafia, Role.Detective, Role.Doctor,
        Role.Maniac, Role.Executioner, Role.Journalist,
        Role.Eavesdropper].count Role.Mafia = 3) ∧
    ([Role.Mafia, Role.Mafia, Role.Mafia, Role.Detective, Role.Doctor,
        Role.Maniac, Role.Executioner, Role.Journalist,
        Role.Eavesdropper].count Role.Detective = 1) ∧
    ([Role.Mafia, Role.Mafia, Role.Mafia, Role.Detective, Role.Doctor,
        Role.Maniac, Role.Executioner, Role.Journalist,
        Role.Eavesdropper].count Role.Doctor = 1) ∧
    ([Role.Mafia, Role.Mafia, Role.Mafia, Role.Detective, Role.Doctor,
        Role.Maniac, Role.Executioner, Role.Journalist,
        Role.Eavesdropper].count Role.Maniac = 1) ∧
    ([Role.Mafia, Role.Mafia, Role.Mafia, Role.Detective, Role.Doctor,
        Role.Maniac, Role.Executioner, Role.Journalist,
        Role.Eavesdropper].count Role.Executioner = 1) ∧
    ([Role.Mafia, Role.Mafia, Role.Mafia, Role.Detective, Role.Doctor,
        Role.Maniac, Role.Executioner, Role.Journalist,
        Role.Eavesdropper].count Role.Journalist = 1) ∧
    ([Role.Mafia, Role.Mafia, Role.Mafia, Role.Detective, Role.Doctor,
        Role.Maniac, Role.Executioner, Role.Journalist,
        Role.Eavesdropper].count Role.Eavesdropper = 1) ∧
    ([Role.Mafia, Role.Mafia, Role.Mafia, Role.Detective, Role.Doctor,
        Role.Maniac, Role.Executioner, Role.Journalist,
        Role.Eavesdropper].count Role.Citizen = 0) :=
  (C5_role_census ⟨9, 3, 1, 1, 1⟩ id (fun l => List.Perm.refl l)
    (by decide) (by decide) (by decide)).1
    [Role.Mafia, Role.Mafia, Role.Mafia, Role.Detective, Role.Doctor,
      Role.Maniac, Role.Executioner, Role.Journalist, Role.Eavesdropper] rfl

end Mafia
